import Mathlib

/-!
Verification development for the export compositing pipeline of
`src/image_compare.py` (the `_save_gif` method and its `resize_pad` helper,
lines 247-333), shallowly embedded in Lean.

Pixels are modelled as RGBA quadruples of natural numbers (channels 0..255 in
the real program).  Images are a width, a height and a pixel function; reads
outside the declared bounds are never relevant to the claims.  The Pillow
library operations the pipeline calls (`Image.new`, `paste`, `thumbnail`,
`quantize`) are embedded at the level of their documented pixel semantics:

* `paste` with an RGBA mask uses Pillow's per-channel blend
  `MULDIV255(dst, 255 - a) + MULDIV255(src, a)` with
  `MULDIV255(x, y) = ((t >>> 8) + t) >>> 8` for `t = x*y + 128`;
* `thumbnail` reproduces Pillow's `preserve_aspect_ratio` computation (the
  floor/ceil choice by nearest aspect, clamped to at least 1, and the no-op
  when the image already fits), with the float arithmetic carried out exactly
  over the integers; the LANCZOS resampling kernel itself is floating point
  and is modelled by plain coordinate sampling — every claim proved below
  depends only on the dimensions of a resized image, never on resampled
  pixel values;
* `quantize(colors=256, method=MEDIANCUT)` is modelled by the classic
  median-cut algorithm (recursive box split at the pixel-count median of the
  widest channel, depth 8, hence at most 2^8 = 256 boxes);
* `quantize(palette=..., dither=FLOYDSTEINBERG)` copies the palette table of
  the palette image and assigns indices by Floyd-Steinberg error diffusion
  over nearest-palette-colour matches.
-/

namespace ImageCompare

/-- An RGBA pixel. -/
structure Pixel where
  r : Nat
  g : Nat
  b : Nat
  a : Nat
deriving DecidableEq

/-- An RGB colour (alpha dropped), as stored in palettes. -/
structure RGB where
  r : Nat
  g : Nat
  b : Nat
deriving DecidableEq

/-- Drop the alpha channel of a pixel. -/
def Pixel.rgb (p : Pixel) : RGB := ⟨p.r, p.g, p.b⟩

/-- An in-memory raster image: width, height and a pixel function. -/
structure Img where
  width : Nat
  height : Nat
  px : Nat → Nat → Pixel

/-- The opaque white pixel used as the `resize_pad` background. -/
def white : Pixel := ⟨255, 255, 255, 255⟩

/-- The opaque black pixel, Pillow's default fill for `Image.new` with no
colour argument (used for the `combined` palette-reference image). -/
def black : Pixel := ⟨0, 0, 0, 255⟩

/-- Pillow's `Image.new("RGB", (w, h), c)`: a constant image. -/
def imageNew (w h : Nat) (c : Pixel) : Img := ⟨w, h, fun _ _ => c⟩

/-- Pillow's MULDIV255 macro: division by 255 with rounding,
`((t >>> 8) + t) >>> 8` for `t = x * y + 128`. -/
def muldiv255 (x y : Nat) : Nat :=
  let t := x * y + 128
  (t / 256 + t) / 256

/-- Pillow's per-channel BLEND macro for a paste through an alpha mask. -/
def blendCh (mask d s : Nat) : Nat :=
  muldiv255 d (255 - mask) + muldiv255 s mask

/-- Pillow's `dst.paste(src, (ox, oy), mask=src)` for an RGB destination and
an RGBA source whose alpha band is the mask: inside the pasted region each
colour channel is alpha-blended, outside it the destination is kept.  The
destination alpha (255 for an RGB image) is kept everywhere. -/
def pasteMask (dst src : Img) (ox oy : Nat) : Img :=
  { width := dst.width
    height := dst.height
    px := fun x y =>
      if ox ≤ x ∧ x < ox + src.width ∧ oy ≤ y ∧ y < oy + src.height then
        let s := src.px (x - ox) (y - oy)
        let d := dst.px x y
        ⟨blendCh s.a d.r s.r, blendCh s.a d.g s.g, blendCh s.a d.b s.b, d.a⟩
      else dst.px x y }

/-- Pillow's `dst.paste(src, (ox, oy))` without a mask: plain copy of the
source pixels into the region, destination kept elsewhere. -/
def pasteOpaque (dst src : Img) (ox oy : Nat) : Img :=
  { width := dst.width
    height := dst.height
    px := fun x y =>
      if ox ≤ x ∧ x < ox + src.width ∧ oy ≤ y ∧ y < oy + src.height then
        src.px (x - ox) (y - oy)
      else dst.px x y }

/-- Rounding of `num / den` to the nearest integer, ties and the exact case
going to the floor — Pillow's `round_aspect` choice between `floor` and
`ceil` by the key `abs(aspect - n / y)` (both candidates share the
denominator, so the comparison reduces to comparing remainders). -/
def roundHalf (num den : Nat) : Nat :=
  if 2 * (num % den) ≤ den then num / den else num / den + 1

/-- Pillow's `round_aspect(x / aspect, key = abs(aspect - x / n))` in the
height-constrained branch of `thumbnail`: the floor/ceil candidates have
different denominators, and a zero floor candidate has key 0 and is then
clamped up to 1. -/
def roundAspectY (x w0 h0 : Nat) : Nat :=
  let num := x * h0
  let f := num / w0
  let c := if num % w0 = 0 then f else f + 1
  if f = 0 then 1
  else if (num - f * w0) * c ≤ (c * w0 - num) * f then f else c

/-- The target-size computation of Pillow's `Image.thumbnail` (its
`preserve_aspect_ratio` inner function): `none` when the image already fits
inside the requested box (no resize happens), otherwise the aspect-preserving
size with the constrained axis kept and the other axis rounded, each
coordinate clamped to at least 1.  The float comparison `x / aspect >= y`
with `aspect = w0 / h0` is carried out exactly as `y * w0 <= x * h0`. -/
def thumbnailSizeOpt (w0 h0 x y : Nat) : Option (Nat × Nat) :=
  if w0 ≤ x ∧ h0 ≤ y then none
  else if y * w0 ≤ x * h0 then some (max (roundHalf (y * w0) h0) 1, y)
  else some (x, max (roundAspectY x w0 h0) 1)

/-- Total version of the thumbnail target size (`getD` of the option with
the original size, which is what a `none`, i.e. a no-op, amounts to). -/
def thumbSize (w0 h0 x y : Nat) : Nat × Nat :=
  (thumbnailSizeOpt w0 h0 x y).getD (w0, h0)

/-- Stand-in for Pillow's `resize(size, LANCZOS)`: declared dimensions are
the requested ones; pixel values are taken by coordinate sampling (the
LANCZOS convolution kernel is floating point and not modelled — no claim
below depends on resampled pixel values). -/
def resizeSample (img : Img) (tw th : Nat) : Img :=
  ⟨tw, th, fun x y => img.px (x * img.width / tw) (y * img.height / th)⟩

/-- Pillow's `img.thumbnail((x, y), LANCZOS)`: no-op when the image already
fits or when the computed target equals the current size, otherwise a
resize to the computed target. -/
def thumbnail (img : Img) (x y : Nat) : Img :=
  match thumbnailSizeOpt img.width img.height x y with
  | none => img
  | some s => if (img.width, img.height) = s then img else resizeSample img s.1 s.2

/-- The `resize_pad` helper of `_save_gif` (lines 282-297): thumbnail the
image into the `(w, h)` box, create an opaque white RGB canvas of size
`(w, h)`, and paste the thumbnail centred onto it using its alpha channel
as the mask. -/
def resize_pad (img : Img) (w h : Nat) : Img :=
  let imgCopy := thumbnail img w h
  let canvas := imageNew w h white
  let x := (w - imgCopy.width) / 2
  let y := (h - imgCopy.height) / 2
  pasteMask canvas imgCopy x y

/-- The pixels of row `y` of an image, left to right, as RGB colours. -/
def Img.rowColors (img : Img) (y : Nat) : List RGB :=
  (List.range img.width).map (fun x => (img.px x y).rgb)

/-- All rows of an image, top to bottom. -/
def Img.rows (img : Img) : List (List RGB) :=
  (List.range img.height).map img.rowColors

/-- All pixels of an image in raster order. -/
def Img.pixelColors (img : Img) : List RGB := img.rows.flatten

/-- Squared distance between two colours, the matching criterion of a
palette lookup. -/
def distSq (c d : RGB) : Nat :=
  Nat.dist c.r d.r * Nat.dist c.r d.r + Nat.dist c.g d.g * Nat.dist c.g d.g +
    Nat.dist c.b d.b * Nat.dist c.b d.b

/-- Scan of the palette tail keeping the best (first minimal) index. -/
def nearestIdxGo (c : RGB) : List RGB → Nat → Nat → Nat → Nat
  | [], _, bestI, _ => bestI
  | p :: ps, i, bestI, bestD =>
    if distSq c p < bestD then nearestIdxGo c ps (i + 1) i (distSq c p)
    else nearestIdxGo c ps (i + 1) bestI bestD

/-- Index of the palette entry nearest to a colour (0 for an empty
palette). -/
def nearestIdx (pal : List RGB) (c : RGB) : Nat :=
  match pal with
  | [] => 0
  | p :: ps => nearestIdxGo c ps 1 0 (distSq c p)

/-- Insertion into a list sorted by a key. -/
def insertByKey (key : RGB → Nat) (c : RGB) : List RGB → List RGB
  | [] => [c]
  | d :: ds => if key c ≤ key d then c :: d :: ds else d :: insertByKey key c ds

/-- Insertion sort by a key (kernel-reducible, unlike merge sort). -/
def sortByKey (key : RGB → Nat) : List RGB → List RGB
  | [] => []
  | c :: cs => insertByKey key c (sortByKey key cs)

/-- Maximum of a channel over a box of colours. -/
def chanMax (key : RGB → Nat) (box : List RGB) : Nat :=
  (box.map key).foldr max 0

/-- Minimum of a channel over a box of colours. -/
def chanMin (key : RGB → Nat) (box : List RGB) : Nat :=
  (box.map key).foldr min 255

/-- The range (spread) of a channel over a box. -/
def chanSpread (key : RGB → Nat) (box : List RGB) : Nat :=
  chanMax key box - chanMin key box

/-- The channel of largest spread in a box, the split axis of a median-cut
step (ties resolved in a fixed green-red-blue order, matching the usual
perceptual priority). -/
def widestChan (box : List RGB) : RGB → Nat :=
  let sr := chanSpread (fun c => c.r) box
  let sg := chanSpread (fun c => c.g) box
  let sb := chanSpread (fun c => c.b) box
  if sr ≤ sg ∧ sb ≤ sg then fun c => c.g
  else if sb ≤ sr then fun c => c.r
  else fun c => c.b

/-- Median-cut box splitting to depth `d`: sort the box on its widest
channel and split at the pixel-count median, recursively.  At most `2 ^ d`
boxes result.  Models `quantize(colors=256, method=Image.Quantize.MEDIANCUT)`
with `d = 8`. -/
def medianCut : Nat → List RGB → List (List RGB)
  | 0, box => [box]
  | d + 1, box =>
    if box.length ≤ 1 then [box]
    else
      let sorted := sortByKey (widestChan box) box
      let half := sorted.length / 2
      medianCut d (sorted.take half) ++ medianCut d (sorted.drop half)

/-- The representative colour of a box: the channel-wise mean. -/
def avgColor (box : List RGB) : RGB :=
  let n := box.length
  if n = 0 then ⟨0, 0, 0⟩
  else ⟨(box.map (fun c => c.r)).sum / n, (box.map (fun c => c.g)).sum / n,
        (box.map (fun c => c.b)).sum / n⟩

/-- The median-cut palette of an image: one representative per box. -/
def medianCutPalette (img : Img) : List RGB :=
  (medianCut 8 img.pixelColors).map avgColor

/-- A palettized ("P"-mode) image: dimensions, a palette table of colours,
and per-pixel palette indices. -/
structure PImg where
  width : Nat
  height : Nat
  palette : List RGB
  idx : Nat → Nat → Nat

/-- Pillow's `img.quantize(colors=256, method=MEDIANCUT)`: derive a
median-cut palette from the image's own pixels and map every pixel to its
nearest palette entry. -/
def quantizeMedianCut (img : Img) : PImg :=
  let pal := medianCutPalette img
  { width := img.width
    height := img.height
    palette := pal
    idx := fun x y => nearestIdx pal (img.px x y).rgb }

/-- Signed per-channel working value during error diffusion. -/
structure Err3 where
  r : Int
  g : Int
  b : Int

/-- Componentwise sum of working values. -/
def Err3.add (u v : Err3) : Err3 := ⟨u.r + v.r, u.g + v.g, u.b + v.b⟩

/-- A sixteenth-weights scaling `n/16` of an error term. -/
def Err3.scale (u : Err3) (n : Int) : Err3 :=
  ⟨u.r * n / 16, u.g * n / 16, u.b * n / 16⟩

/-- The zero working value. -/
def err0 : Err3 := ⟨0, 0, 0⟩

/-- Clamp a working channel back into 0..255. -/
def clamp255 (n : Int) : Nat := (max 0 (min 255 n)).toNat

/-- Clamp a working value to a colour. -/
def errToColor (u : Err3) : RGB := ⟨clamp255 u.r, clamp255 u.g, clamp255 u.b⟩

/-- Embed a colour as a working value. -/
def colorToErr (c : RGB) : Err3 := ⟨(c.r : Int), (c.g : Int), (c.b : Int)⟩

/-- The quantization error of a working value against a palette colour. -/
def errSub (u : Err3) (c : RGB) : Err3 :=
  ⟨u.r - (c.r : Int), u.g - (c.g : Int), u.b - (c.b : Int)⟩

/-- One row of Floyd-Steinberg diffusion.  `re` is the error flowing into
the current pixel from its left neighbour (weight 7/16); `a` and `b`
accumulate the errors for the columns one to the left of and under the
current pixel in the next row (weights 3/16 and 5/16; weight 1/16 starts
the column to the right).  Returns the palette indices of the row and the
next-row error column list, whose head belongs to the column left of the
row start and is dropped by the caller. -/
def fsRowGo (pal : List RGB) : List Err3 → Err3 → Err3 → Err3 → List Nat × List Err3
  | [], _, a, _ => ([], [a])
  | p :: rest, re, a, b =>
    let v := p.add re
    let i := nearestIdx pal (errToColor v)
    let e := errSub v (pal.getD i ⟨0, 0, 0⟩)
    let pr := fsRowGo pal rest (e.scale 7) (Err3.add b (e.scale 5)) (e.scale 1)
    (i :: pr.1, Err3.add a (e.scale 3) :: pr.2)

/-- Floyd-Steinberg diffusion over all rows, threading the next-row error
carry (one entry per column) from row to row. -/
def fsRowsGo (pal : List RGB) : List (List RGB) → List Err3 → List (List Nat)
  | [], _ => []
  | row :: rest, carry =>
    let pr := fsRowGo pal (List.zipWith Err3.add (row.map colorToErr) carry) err0 err0 err0
    pr.1 :: fsRowsGo pal rest (pr.2.drop 1)

/-- Floyd-Steinberg dithering of a row list against a palette. -/
def fsDither (pal : List RGB) (rows : List (List RGB)) : List (List Nat) :=
  fsRowsGo pal rows (List.replicate (rows.headD []).length err0)

/-- Pillow dither modes used by the pipeline. -/
inductive DitherMode
  | noDither
  | floydSteinberg
deriving DecidableEq

/-- Pillow's `img.quantize(palette=pal, dither=...)`: the result keeps the
image's dimensions, copies the palette table of the palette image, and
assigns indices, with Floyd-Steinberg error diffusion when requested. -/
def quantizeToPalette (img : Img) (pal : PImg) (d : DitherMode) : PImg :=
  match d with
  | .floydSteinberg =>
    let table := fsDither pal.palette img.rows
    { width := img.width
      height := img.height
      palette := pal.palette
      idx := fun x y => (table.getD y []).getD x 0 }
  | .noDither =>
    { width := img.width
      height := img.height
      palette := pal.palette
      idx := fun x y => nearestIdx pal.palette (img.px x y).rgb }

/-- The colour a palettized image shows at a pixel. -/
def PImg.colorAt (p : PImg) (x y : Nat) : RGB :=
  p.palette.getD (p.idx x y) ⟨0, 0, 0⟩

/-- All colours a palettized image shows, in raster order. -/
def PImg.usedColors (p : PImg) : List RGB :=
  (List.range p.height).flatMap (fun y => (List.range p.width).map (fun x => p.colorAt x y))

/-- Line 279: `max_w = max(img1.width, img2.width)`. -/
def max_w (img1 img2 : Img) : Nat := max img1.width img2.width

/-- Line 280: `max_h = max(img1.height, img2.height)`. -/
def max_h (img1 img2 : Img) : Nat := max img1.height img2.height

/-- Line 299: `img1_processed = resize_pad(img1, max_w, max_h)`. -/
def img1_processed (img1 img2 : Img) : Img :=
  resize_pad img1 (max_w img1 img2) (max_h img1 img2)

/-- Line 300: `img2_processed = resize_pad(img2, max_w, max_h)`. -/
def img2_processed (img1 img2 : Img) : Img :=
  resize_pad img2 (max_w img1 img2) (max_h img1 img2)

/-- Lines 303-305: the palette-reference image — a black RGB canvas of size
`(max_w, max_h * 2)` with the two processed frames pasted at `(0, 0)` and
`(0, max_h)`. -/
def combined (img1 img2 : Img) : Img :=
  pasteOpaque
    (pasteOpaque (imageNew (max_w img1 img2) (max_h img1 img2 * 2) black)
      (img1_processed img1 img2) 0 0)
    (img2_processed img1 img2) 0 (max_h img1 img2)

/-- Line 306: `palette_img = combined.quantize(colors=256, method=MEDIANCUT)`. -/
def palette_img (img1 img2 : Img) : PImg :=
  quantizeMedianCut (combined img1 img2)

/-- Line 309: `img1_q = img1_processed.quantize(palette=palette_img,
dither=FLOYDSTEINBERG)`. -/
def img1_q (img1 img2 : Img) : PImg :=
  quantizeToPalette (img1_processed img1 img2) (palette_img img1 img2) .floydSteinberg

/-- Line 310: the same for the second frame. -/
def img2_q (img1 img2 : Img) : PImg :=
  quantizeToPalette (img2_processed img1 img2) (palette_img img1 img2) .floydSteinberg

/-- Lines 313-316: `frames_pil = []; for _ in range(count): append(img1_q);
append(img2_q)`. -/
def frames_pil (img1 img2 : Img) (count : Nat) : List PImg :=
  (List.range count).foldl (fun acc _ => acc ++ [img1_q img1 img2, img2_q img1 img2]) []

/-- The animated-image parameters handed to `save` on lines 321-327:
the full frame list (first frame plus `append_images`), the uniform
per-frame duration in milliseconds, and the loop count (0 encodes
looping forever in the GIF container). -/
structure GifSpec where
  frames : List PImg
  durationMs : Nat
  loop : Nat

/-- The pure core of `_save_gif` (lines 275-327) on two decoded images.
The interval spin box holds one-decimal values 0.1..10.0, so the frequency
is carried as a count of tenths of a second; `int(freq * 1000)` is then
exactly `freqTenths * 100`. -/
def buildGif (img1 img2 : Img) (count freqTenths : Nat) : GifSpec :=
  { frames := frames_pil img1 img2 count
    durationMs := freqTenths * 100
    loop := 0 }

/-- The widget state `_save_gif` reads and writes: the two selected image
paths (`None` until chosen) and the cached output directory (`None` until a
directory was chosen; only non-empty strings are ever stored). -/
structure SaveState where
  image1Path : Option String
  image2Path : Option String
  outputDir : Option String
deriving DecidableEq

/-- The external dialog collaborators of one `_save_gif` invocation:
`isdir` models `os.path.isdir`; `reuseAnswer` is the answer to the
"keep saving here?" question (`true` = Yes); `pickedDir` is what
`QFileDialog.getExistingDirectory` returns, the empty string meaning the
user cancelled.  At most one directory dialog is shown per invocation. -/
structure DialogEnv where
  isdir : String → Bool
  reuseAnswer : Bool
  pickedDir : String

/-- Python truthiness of the cached directory field (`None` and the empty
string are falsy). -/
def dirTruthy : Option String → Bool
  | none => false
  | some d => !(d == "")

/-- Lines 253-266, the destination-directory selection: reuse the cached
directory when it is truthy, still a directory on disk, and the user says
Yes; otherwise show the directory dialog, returning `none` (early return,
state untouched) on cancel and caching the chosen directory otherwise. -/
def chooseOutputDir (st : SaveState) (env : DialogEnv) : SaveState × Option String :=
  if dirTruthy st.outputDir && env.isdir (st.outputDir.getD "") then
    if env.reuseAnswer then (st, st.outputDir)
    else if env.pickedDir == "" then (st, none)
    else ({ st with outputDir := some env.pickedDir }, some env.pickedDir)
  else if env.pickedDir == "" then (st, none)
  else ({ st with outputDir := some env.pickedDir }, some env.pickedDir)

/-- The exceptions the `try` block of `_save_gif` can propagate to its
generic handler: a Pillow decode failure on `Image.open` (with the
offending path), an `OSError` from writing the output file, and the
`IndexError` from `frames_pil[0]` when the frame list is empty.
`invalidParameter` names the `InvalidParameterError` of the specification;
it is listed here so the specification's taxonomy can be stated, but no
code path below ever produces it. -/
inductive SaveErr
  | decodeError (path : String)
  | ioError
  | indexError
  | invalidParameter
deriving DecidableEq

/-- The observable outcome of one `_save_gif` invocation: the early warning
when images are missing, the silent early return on dialog cancel, a
successful write of the GIF parameters into the chosen directory, or a
failure surfaced by the generic `except` handler as one critical message
box (nothing is retried). -/
inductive SaveOutcome
  | noImages
  | cancelled
  | saved (dir : String) (gif : GifSpec)
  | failed (e : SaveErr)

/-- The `_save_gif` method (lines 247-333).  `decode` models
`Image.open(path).convert("RGBA")`, returning `none` when the path cannot
be decoded; `writeOk` models whether the destination accepts the write.
Image A is opened before image B, so a failure on A is surfaced even when B
is also unreadable; the frame list is built before the write, so an empty
frame list (impossible through the spin box, which clamps the count to at
least 1) surfaces its `IndexError` before any write error. -/
def save_gif (st : SaveState) (env : DialogEnv) (decode : String → Option Img)
    (writeOk : Bool) (count freqTenths : Nat) : SaveState × SaveOutcome :=
  match st.image1Path, st.image2Path with
  | none, _ => (st, .noImages)
  | some _, none => (st, .noImages)
  | some p1, some p2 =>
    let st1 := (chooseOutputDir st env).1
    match (chooseOutputDir st env).2 with
    | none => (st1, .cancelled)
    | some dir =>
      match decode p1, decode p2 with
      | none, _ => (st1, .failed (.decodeError p1))
      | some _, none => (st1, .failed (.decodeError p2))
      | some i1, some i2 =>
        if count = 0 then (st1, .failed .indexError)
        else if writeOk then (st1, .saved dir (buildGif i1 i2 count freqTenths))
        else (st1, .failed .ioError)

/-- The clamp of the repeat-count spin box, `setRange(1, 999)` (line 89):
any value pushed into the widget is forced into 1..999, so the count
`_save_gif` reads is always positive. -/
def spinCountClamp (v : Int) : Int := max 1 (min 999 v)

/-- The clamp of the interval spin box in tenths of a second,
`setRange(0.1, 10.0)` with one decimal (lines 78-81): the stored value is
always at least one tenth, so the derived duration is always positive. -/
def spinFreqClampTenths (v : Int) : Int := max 1 (min 100 v)

/-- Witness fixture: a 1 by 1 opaque red image. -/
def red1 : Img := ⟨1, 1, fun _ _ => ⟨255, 0, 0, 255⟩⟩

/-- Witness fixture: a 1 by 1 opaque blue image. -/
def blue1 : Img := ⟨1, 1, fun _ _ => ⟨0, 0, 255, 255⟩⟩

/-- Witness fixture: a 1 by 1 fully transparent black image — the pixel a
naive compositor would turn into visible black. -/
def transparent1 : Img := ⟨1, 1, fun _ _ => ⟨0, 0, 0, 0⟩⟩

/-- Witness fixture: a 4 by 2 opaque red image, to be thumbnailed into a
2 by 2 box. -/
def red4x2 : Img := ⟨4, 2, fun _ _ => ⟨255, 0, 0, 255⟩⟩

/-- Witness fixture: widget state with both images picked and no cached
output directory. -/
def stBoth : SaveState := ⟨some "a.png", some "b.png", none⟩

/-- Witness fixture: dialog environment in which the user cancels the
directory dialog. -/
def envCancel : DialogEnv := ⟨fun _ => true, true, ""⟩

/-- Witness fixture: dialog environment in which the user picks "/out". -/
def envPick : DialogEnv := ⟨fun _ => true, true, "/out"⟩

/-- Witness fixture: a decoder that accepts both fixture paths. -/
def decodeOk : String → Option Img :=
  fun p => if p == "a.png" then some red1 else if p == "b.png" then some blue1 else none

/-- Witness fixture: a decoder that fails on every path. -/
def decodeFailA : String → Option Img := fun _ => none

theorem foldl_append_pair {α : Type} (a b : α) :
    ∀ (n : Nat) (s : List α),
      (List.range n).foldl (fun acc _ => acc ++ [a, b]) s =
        s ++ (List.replicate n [a, b]).flatten := by
  intro n
  induction n with
  | zero => intro s; simp
  | succ m ih =>
    intro s
    rw [List.range_succ, List.foldl_append, ih, List.replicate_succ',
      List.flatten_append]
    simp

theorem frames_pil_eq (i1 i2 : Img) (count : Nat) :
    frames_pil i1 i2 count =
      (List.replicate count [img1_q i1 i2, img2_q i1 i2]).flatten := by
  unfold frames_pil
  rw [foldl_append_pair]
  simp

theorem flatten_replicate_pair_length {α : Type} (a b : α) (n : Nat) :
    ((List.replicate n [a, b]).flatten).length = 2 * n := by
  induction n with
  | zero => simp
  | succ m ih => rw [List.replicate_succ, List.flatten_cons]; simp [ih]; omega

theorem frames_pil_length (i1 i2 : Img) (count : Nat) :
    (frames_pil i1 i2 count).length = 2 * count := by
  rw [frames_pil_eq, flatten_replicate_pair_length]

theorem resize_pad_width (img : Img) (w h : Nat) : (resize_pad img w h).width = w := rfl

theorem resize_pad_height (img : Img) (w h : Nat) : (resize_pad img w h).height = h := rfl

theorem img1_q_width (i1 i2 : Img) : (img1_q i1 i2).width = max_w i1 i2 := rfl

theorem img1_q_height (i1 i2 : Img) : (img1_q i1 i2).height = max_h i1 i2 := rfl

theorem img2_q_width (i1 i2 : Img) : (img2_q i1 i2).width = max_w i1 i2 := rfl

theorem img2_q_height (i1 i2 : Img) : (img2_q i1 i2).height = max_h i1 i2 := rfl

theorem mem_frames_pil_dims (i1 i2 : Img) (count : Nat) (f : PImg)
    (hf : f ∈ frames_pil i1 i2 count) :
    f.width = max_w i1 i2 ∧ f.height = max_h i1 i2 := by
  rw [frames_pil_eq] at hf
  rcases List.mem_flatten.1 hf with ⟨l, hl, hfl⟩
  rcases List.eq_of_mem_replicate hl with rfl
  rcases hfl with _ | ⟨_, h⟩
  · exact ⟨img1_q_width i1 i2, img1_q_height i1 i2⟩
  · rcases h with _ | ⟨_, h⟩
    · exact ⟨img2_q_width i1 i2, img2_q_height i1 i2⟩
    · cases h

theorem length_insertByKey (key : RGB → Nat) (c : RGB) :
    ∀ l : List RGB, (insertByKey key c l).length = l.length + 1 := by
  intro l
  induction l with
  | nil => rfl
  | cons d ds ih =>
    unfold insertByKey
    split
    · simp
    · simp [ih]

theorem length_sortByKey (key : RGB → Nat) :
    ∀ l : List RGB, (sortByKey key l).length = l.length := by
  intro l
  induction l with
  | nil => rfl
  | cons c cs ih => simp [sortByKey, length_insertByKey, ih]

theorem medianCut_length_le : ∀ (d : Nat) (box : List RGB),
    (medianCut d box).length ≤ 2 ^ d := by
  intro d
  induction d with
  | zero => intro box; simp [medianCut]
  | succ m ih =>
    intro box
    unfold medianCut
    split
    · have : 0 < 2 ^ (m + 1) := pow_pos (by norm_num) _
      simp only [List.length_cons, List.length_nil]
      omega
    · rw [List.length_append]
      have h1 := ih ((sortByKey (widestChan box) box).take
        ((sortByKey (widestChan box) box).length / 2))
      have h2 := ih ((sortByKey (widestChan box) box).drop
        ((sortByKey (widestChan box) box).length / 2))
      have h3 : 2 ^ (m + 1) = 2 ^ m * 2 := pow_succ 2 m
      omega

theorem medianCut_ne_nil : ∀ (d : Nat) (box : List RGB), medianCut d box ≠ [] := by
  intro d
  induction d with
  | zero => intro box; simp [medianCut]
  | succ m ih =>
    intro box
    unfold medianCut
    split
    · simp
    · simp [ih]

theorem medianCut_mem_ne_nil : ∀ (d : Nat) (box : List RGB), box ≠ [] →
    ∀ b ∈ medianCut d box, b ≠ [] := by
  intro d
  induction d with
  | zero =>
    intro box hbox b hb
    simp [medianCut] at hb
    exact hb ▸ hbox
  | succ m ih =>
    intro box hbox b hb
    unfold medianCut at hb
    split at hb
    · simp at hb
      exact hb ▸ hbox
    · rename_i hlen
      have hlen2 : 2 ≤ box.length := by
        rcases Nat.lt_or_ge box.length 2 with h | h
        · exact absurd (by omega) hlen
        · exact h
      have hsort : (sortByKey (widestChan box) box).length = box.length :=
        length_sortByKey _ _
      rcases List.mem_append.1 hb with h | h
      · refine ih _ ?_ _ h
        have : ((sortByKey (widestChan box) box).take
            ((sortByKey (widestChan box) box).length / 2)).length > 0 := by
          rw [List.length_take]
          omega
        exact List.length_pos.1 this
      · refine ih _ ?_ _ h
        have : ((sortByKey (widestChan box) box).drop
            ((sortByKey (widestChan box) box).length / 2)).length > 0 := by
          rw [List.length_drop]
          omega
        exact List.length_pos.1 this

theorem sum_replicate_nat : ∀ (n w : Nat), (List.replicate n w).sum = n * w := by
  intro n w
  induction n with
  | zero => simp
  | succ m ih => rw [List.replicate_succ]; simp [ih]; ring

theorem pixelColors_length (img : Img) :
    img.pixelColors.length = img.height * img.width := by
  unfold Img.pixelColors Img.rows
  rw [List.length_flatten, List.map_map]
  have h1 : (List.length ∘ img.rowColors) = fun _ => img.width := by
    funext y
    simp [Img.rowColors]
  rw [h1]
  rw [List.map_const']
  rw [sum_replicate_nat]
  simp

theorem pixelColors_ne_nil (img : Img) (hw : 0 < img.width) (hh : 0 < img.height) :
    img.pixelColors ≠ [] := by
  refine List.length_pos.1 ?_
  rw [pixelColors_length]
  exact Nat.mul_pos hh hw

theorem medianCutPalette_length_le (img : Img) :
    (medianCutPalette img).length ≤ 256 := by
  unfold medianCutPalette
  rw [List.length_map]
  have := medianCut_length_le 8 img.pixelColors
  norm_num at this
  exact this

theorem medianCutPalette_ne_nil (img : Img) (hw : 0 < img.width)
    (hh : 0 < img.height) : medianCutPalette img ≠ [] := by
  unfold medianCutPalette
  intro h
  exact medianCut_ne_nil 8 img.pixelColors (List.map_eq_nil_iff.1 h)

theorem nearestIdxGo_lt (c : RGB) : ∀ (ps : List RGB) (i bI bD : Nat), bI < i →
    nearestIdxGo c ps i bI bD < i + ps.length := by
  intro ps
  induction ps with
  | nil =>
    intro i bI bD h
    simpa [nearestIdxGo] using h
  | cons p ps ih =>
    intro i bI bD h
    unfold nearestIdxGo
    split
    · have := ih (i + 1) i (distSq c p) (Nat.lt_succ_self i)
      simp only [List.length_cons]
      omega
    · have := ih (i + 1) bI bD (Nat.lt_succ_of_lt h)
      simp only [List.length_cons]
      omega

theorem nearestIdx_lt (pal : List RGB) (c : RGB) (h : pal ≠ []) :
    nearestIdx pal c < pal.length := by
  cases pal with
  | nil => exact absurd rfl h
  | cons p ps =>
    unfold nearestIdx
    have := nearestIdxGo_lt c ps 1 0 (distSq c p) Nat.one_pos
    simp only [List.length_cons]
    omega

theorem fsRowGo_idx_lt (pal : List RGB) (hp : pal ≠ []) :
    ∀ (row : List Err3) (re a b : Err3), ∀ i ∈ (fsRowGo pal row re a b).1,
      i < pal.length := by
  intro row
  induction row with
  | nil => intro re a b i hi; simp [fsRowGo] at hi
  | cons p rest ih =>
    intro re a b i hi
    simp only [fsRowGo, List.mem_cons] at hi
    rcases hi with rfl | hi
    · exact nearestIdx_lt pal _ hp
    · exact ih _ _ _ _ hi

theorem fsRowsGo_idx_lt (pal : List RGB) (hp : pal ≠ []) :
    ∀ (rows : List (List RGB)) (carry : List Err3),
      ∀ r ∈ fsRowsGo pal rows carry, ∀ i ∈ r, i < pal.length := by
  intro rows
  induction rows with
  | nil => intro carry r hr; simp [fsRowsGo] at hr
  | cons row rest ih =>
    intro carry r hr i hi
    simp only [fsRowsGo, List.mem_cons] at hr
    rcases hr with rfl | hr
    · exact fsRowGo_idx_lt pal hp _ _ _ _ i hi
    · exact ih _ _ hr _ hi

theorem fsDither_idx_lt (pal : List RGB) (hp : pal ≠ []) (rows : List (List RGB)) :
    ∀ r ∈ fsDither pal rows, ∀ i ∈ r, i < pal.length :=
  fsRowsGo_idx_lt pal hp rows _

theorem getD_nat_lt {l : List Nat} {bound x : Nat} (h : ∀ i ∈ l, i < bound)
    (hb : 0 < bound) : l.getD x 0 < bound := by
  rw [List.getD_eq_getElem?_getD]
  cases hx : l[x]? with
  | none => simpa using hb
  | some v =>
    simp only [Option.getD_some]
    exact h v (List.getElem?_mem hx)

theorem table_getD_lt {t : List (List Nat)} {bound x y : Nat}
    (h : ∀ r ∈ t, ∀ i ∈ r, i < bound) (hb : 0 < bound) :
    (t.getD y []).getD x 0 < bound := by
  cases hy : t[y]? with
  | none =>
    have he : t.getD y [] = [] := by rw [List.getD_eq_getElem?_getD, hy]; rfl
    rw [he]
    simpa using hb
  | some r =>
    have he : t.getD y [] = r := by rw [List.getD_eq_getElem?_getD, hy]; rfl
    rw [he]
    exact getD_nat_lt (h r (List.getElem?_mem hy)) hb

theorem img1_q_idx_lt (i1 i2 : Img) (hp : (palette_img i1 i2).palette ≠ []) :
    ∀ x y, (img1_q i1 i2).idx x y < (img1_q i1 i2).palette.length := by
  intro x y
  exact table_getD_lt (fsDither_idx_lt _ hp _) (List.length_pos.2 hp)

theorem img2_q_idx_lt (i1 i2 : Img) (hp : (palette_img i1 i2).palette ≠ []) :
    ∀ x y, (img2_q i1 i2).idx x y < (img2_q i1 i2).palette.length := by
  intro x y
  exact table_getD_lt (fsDither_idx_lt _ hp _) (List.length_pos.2 hp)

theorem usedColors_subset {p : PImg} (h : ∀ x y, p.idx x y < p.palette.length) :
    p.usedColors ⊆ p.palette := by
  intro c hc
  unfold PImg.usedColors at hc
  rcases List.mem_flatMap.1 hc with ⟨y, _, hy⟩
  rcases List.mem_map.1 hy with ⟨x, _, hx⟩
  subst hx
  unfold PImg.colorAt
  rw [List.getD_eq_getElem _ _ (h x y)]
  exact List.getElem_mem _

theorem dedup_length_le {l m : List RGB} (h : l ⊆ m) :
    l.dedup.length ≤ m.length :=
  ((List.nodup_dedup l).subperm ((List.dedup_subset l).trans h)).length_le

theorem roundHalf_le {num den x : Nat} (hden : 0 < den) (h : num ≤ x * den) :
    roundHalf num den ≤ x := by
  unfold roundHalf
  split
  · calc num / den ≤ x * den / den := Nat.div_le_div_right h
      _ = x := Nat.mul_div_cancel x hden
  · rename_i hr
    have hmod := Nat.div_add_mod num den
    have hrem : num % den < den := Nat.mod_lt _ hden
    have hx : den * (num / den) < x * den := by omega
    have hx2 : num / den < x := by
      have e : den * x = x * den := Nat.mul_comm den x
      exact Nat.lt_of_mul_lt_mul_left (a := den) (by omega)
    omega

theorem roundAspectY_le {x w0 h0 y : Nat} (hw : 0 < w0) (hy : 0 < y)
    (h : x * h0 ≤ y * w0) : roundAspectY x w0 h0 ≤ y := by
  unfold roundAspectY
  dsimp only
  have hmod := Nat.div_add_mod (x * h0) w0
  have hrem : x * h0 % w0 < w0 := Nat.mod_lt _ hw
  have hf : x * h0 / w0 ≤ y := by
    calc x * h0 / w0 ≤ y * w0 / w0 := Nat.div_le_div_right h
      _ = y := Nat.mul_div_cancel y hw
  by_cases hr : x * h0 % w0 = 0
  · simp only [if_pos hr]
    split
    · exact hy
    · split
      · exact hf
      · exact hf
  · simp only [if_neg hr]
    have hf1 : x * h0 / w0 + 1 ≤ y := by
      have hlt : w0 * (x * h0 / w0) < y * w0 := by omega
      have e : w0 * y = y * w0 := Nat.mul_comm w0 y
      have : x * h0 / w0 < y := Nat.lt_of_mul_lt_mul_left (a := w0) (by omega)
      omega
    split
    · exact hy
    · split
      · exact hf
      · exact hf1

theorem roundHalf_bounds {num den : Nat} (hden : 0 < den) :
    den * roundHalf num den ≤ num + den ∧ num ≤ den * roundHalf num den + den := by
  have hmod := Nat.div_add_mod num den
  have hrem : num % den < den := Nat.mod_lt _ hden
  unfold roundHalf
  split
  · omega
  · have e : den * (num / den + 1) = den * (num / den) + den := by ring
    omega

theorem roundHalf_max_bounds {num den : Nat} (hden : 0 < den) :
    den * max (roundHalf num den) 1 ≤ num + den ∧
      num ≤ den * max (roundHalf num den) 1 + den := by
  rcases @roundHalf_bounds num den hden with ⟨h1, h2⟩
  rcases Nat.eq_zero_or_pos (roundHalf num den) with h0 | h0
  · rw [h0] at h1 h2 ⊢
    have em : max 0 1 = 1 := rfl
    rw [em]
    omega
  · have em : max (roundHalf num den) 1 = roundHalf num den := Nat.max_eq_left h0
    rw [em]
    exact ⟨h1, h2⟩

theorem roundAspectY_bounds {x w0 h0 : Nat} (hw : 0 < w0) :
    w0 * roundAspectY x w0 h0 ≤ x * h0 + w0 ∧
      x * h0 ≤ w0 * roundAspectY x w0 h0 + w0 := by
  have hmod := Nat.div_add_mod (x * h0) w0
  have hrem : x * h0 % w0 < w0 := Nat.mod_lt _ hw
  unfold roundAspectY
  dsimp only
  by_cases hr : x * h0 % w0 = 0
  · simp only [if_pos hr]
    split
    · rename_i hf0
      rw [hf0] at hmod
      have e0 : w0 * 0 = 0 := by ring
      have e1 : w0 * 1 = w0 := by ring
      omega
    · split
      · omega
      · omega
  · simp only [if_neg hr]
    have e : w0 * (x * h0 / w0 + 1) = w0 * (x * h0 / w0) + w0 := by ring
    split
    · rename_i hf0
      rw [hf0] at hmod
      have e0 : w0 * 0 = 0 := by ring
      have e1 : w0 * 1 = w0 := by ring
      omega
    · split
      · omega
      · omega

theorem roundAspectY_pos (x w0 h0 : Nat) : 0 < roundAspectY x w0 h0 := by
  unfold roundAspectY
  dsimp only
  by_cases hf0 : x * h0 / w0 = 0
  · simp only [if_pos hf0]
    exact Nat.one_pos
  · simp only [if_neg hf0]
    have hp : 0 < x * h0 / w0 := Nat.pos_of_ne_zero hf0
    by_cases hr : x * h0 % w0 = 0
    · simp only [if_pos hr]
      split
      · exact hp
      · exact hp
    · simp only [if_neg hr]
      split
      · exact hp
      · exact Nat.succ_pos _

theorem thumbSize_le_box {w0 h0 x y : Nat} (hh0 : 0 < h0) (hx : 0 < x) (hy : 0 < y) :
    (thumbSize w0 h0 x y).1 ≤ x ∧ (thumbSize w0 h0 x y).2 ≤ y := by
  unfold thumbSize thumbnailSizeOpt
  split
  · rename_i hfit
    simp only [Option.getD_none]
    exact ⟨hfit.1, hfit.2⟩
  · split
    · rename_i hbr
      simp only [Option.getD_some]
      refine ⟨?_, Nat.le_refl y⟩
      have h1 : roundHalf (y * w0) h0 ≤ x := roundHalf_le hh0 hbr
      omega
    · rename_i hnfit hbr
      simp only [Option.getD_some]
      refine ⟨Nat.le_refl x, ?_⟩
      have h1 : roundAspectY x w0 h0 ≤ y := by
        rcases Nat.eq_zero_or_pos w0 with hw0 | hw0
        · have e0 : y * w0 = 0 := by rw [hw0]; ring
          have hbr2 : x * h0 < y * w0 := Nat.lt_of_not_le hbr
          omega
        · exact roundAspectY_le hw0 hy (Nat.le_of_lt (Nat.lt_of_not_le hbr))
      omega

theorem thumbSize_le_orig {w0 h0 x y : Nat} (hw0 : 0 < w0) (hh0 : 0 < h0)
    (hx : 0 < x) (hy : 0 < y) :
    (thumbSize w0 h0 x y).1 ≤ w0 ∧ (thumbSize w0 h0 x y).2 ≤ h0 := by
  unfold thumbSize thumbnailSizeOpt
  split
  · simp only [Option.getD_none]
    exact ⟨Nat.le_refl _, Nat.le_refl _⟩
  · rename_i hnfit
    split
    · rename_i hbr
      simp only [Option.getD_some]
      have hyh : y ≤ h0 := by
        by_contra hc
        push_neg at hc
        have h1 : w0 * (h0 + 1) ≤ w0 * y := Nat.mul_le_mul (Nat.le_refl w0) hc
        have e1 : w0 * (h0 + 1) = w0 * h0 + w0 := by ring
        have e2 : w0 * y = y * w0 := Nat.mul_comm w0 y
        have h3 : w0 * h0 < x * h0 := by omega
        have h4 : w0 < x := Nat.lt_of_mul_lt_mul_right h3
        exact hnfit ⟨Nat.le_of_lt h4, Nat.le_of_lt hc⟩
      refine ⟨?_, hyh⟩
      have h1 : roundHalf (y * w0) h0 ≤ w0 := by
        apply roundHalf_le hh0
        calc y * w0 ≤ h0 * w0 := Nat.mul_le_mul hyh (Nat.le_refl w0)
          _ = w0 * h0 := Nat.mul_comm h0 w0
      omega
    · rename_i hbr
      simp only [Option.getD_some]
      have hxw : x ≤ w0 := by
        by_contra hc
        push_neg at hc
        have h1 : h0 * (w0 + 1) ≤ h0 * x := Nat.mul_le_mul (Nat.le_refl h0) hc
        have e1 : h0 * (w0 + 1) = h0 * w0 + h0 := by ring
        have e2 : h0 * x = x * h0 := Nat.mul_comm h0 x
        have hbr2 : x * h0 < y * w0 := Nat.lt_of_not_le hbr
        have h3 : h0 * w0 < y * w0 := by omega
        have h4 : h0 < y := Nat.lt_of_mul_lt_mul_right h3
        exact hnfit ⟨Nat.le_of_lt hc, Nat.le_of_lt h4⟩
      refine ⟨hxw, ?_⟩
      have h1 : roundAspectY x w0 h0 ≤ h0 := by
        apply roundAspectY_le hw0 hh0
        calc x * h0 ≤ w0 * h0 := Nat.mul_le_mul hxw (Nat.le_refl h0)
          _ = h0 * w0 := Nat.mul_comm w0 h0
      omega

theorem thumbSize_aspect {w0 h0 x y : Nat} (hw0 : 0 < w0) (hh0 : 0 < h0)
    (hx : 0 < x) (hy : 0 < y) :
    h0 * (thumbSize w0 h0 x y).1 ≤ w0 * (thumbSize w0 h0 x y).2 + max w0 h0 ∧
      w0 * (thumbSize w0 h0 x y).2 ≤ h0 * (thumbSize w0 h0 x y).1 + max w0 h0 := by
  unfold thumbSize thumbnailSizeOpt
  split
  · simp only [Option.getD_none]
    have e : h0 * w0 = w0 * h0 := Nat.mul_comm h0 w0
    omega
  · split
    · simp only [Option.getD_some]
      have hb := @roundHalf_max_bounds (y * w0) h0 hh0
      have e : y * w0 = w0 * y := Nat.mul_comm y w0
      have hm : h0 ≤ max w0 h0 := le_max_right w0 h0
      omega
    · simp only [Option.getD_some]
      have hb := @roundAspectY_bounds x w0 h0 hw0
      have hp := roundAspectY_pos x w0 h0
      have em : max (roundAspectY x w0 h0) 1 = roundAspectY x w0 h0 :=
        Nat.max_eq_left hp
      rw [em]
      have e : h0 * x = x * h0 := Nat.mul_comm h0 x
      have hm : w0 ≤ max w0 h0 := le_max_left w0 h0
      omega

theorem thumbnailSizeOpt_of_fits {w0 h0 x y : Nat} (hw : w0 ≤ x) (hh : h0 ≤ y) :
    thumbnailSizeOpt w0 h0 x y = none := by
  unfold thumbnailSizeOpt
  rw [if_pos ⟨hw, hh⟩]

theorem thumbnail_of_fits (img : Img) (x y : Nat) (hw : img.width ≤ x)
    (hh : img.height ≤ y) : thumbnail img x y = img := by
  unfold thumbnail
  rw [thumbnailSizeOpt_of_fits hw hh]

theorem thumbnail_width (img : Img) (x y : Nat) :
    (thumbnail img x y).width = (thumbSize img.width img.height x y).1 := by
  unfold thumbnail thumbSize
  cases h : thumbnailSizeOpt img.width img.height x y with
  | none => simp
  | some s =>
    simp only [Option.getD_some]
    split
    · rename_i he
      rw [← he]
    · rfl

theorem thumbnail_height (img : Img) (x y : Nat) :
    (thumbnail img x y).height = (thumbSize img.width img.height x y).2 := by
  unfold thumbnail thumbSize
  cases h : thumbnailSizeOpt img.width img.height x y with
  | none => simp
  | some s =>
    simp only [Option.getD_some]
    split
    · rename_i he
      rw [← he]
    · rfl

theorem muldiv255_zero (s : Nat) : muldiv255 s 0 = 0 := by
  unfold muldiv255
  simp

set_option maxRecDepth 4000 in
theorem muldiv255_id_ball : ∀ d, d < 256 → muldiv255 d 255 = d := by decide

theorem blendCh_mask_zero {d : Nat} (hd : d ≤ 255) (s : Nat) : blendCh 0 d s = d := by
  unfold blendCh
  rw [Nat.sub_zero, muldiv255_id_ball d (by omega), muldiv255_zero, Nat.add_zero]

theorem resize_pad_alpha (img : Img) (w h x y : Nat) :
    ((resize_pad img w h).px x y).a = 255 := by
  unfold resize_pad pasteMask imageNew
  dsimp only
  split
  · rfl
  · rfl

theorem resize_pad_transparent (img : Img) (w h i j : Nat)
    (hw : img.width ≤ w) (hh : img.height ≤ h)
    (hi : i < img.width) (hj : j < img.height) (ha : (img.px i j).a = 0) :
    (resize_pad img w h).px ((w - img.width) / 2 + i) ((h - img.height) / 2 + j) =
      white := by
  unfold resize_pad
  rw [thumbnail_of_fits img w h hw hh]
  unfold pasteMask imageNew
  dsimp only
  rw [if_pos ⟨Nat.le_add_right _ _, by omega, Nat.le_add_right _ _, by omega⟩]
  rw [Nat.add_sub_cancel_left, Nat.add_sub_cancel_left]
  rw [ha]
  simp only [show white.r = 255 from rfl, show white.g = 255 from rfl,
    show white.b = 255 from rfl, show white.a = 255 from rfl]
  rw [blendCh_mask_zero (Nat.le_refl 255), blendCh_mask_zero (Nat.le_refl 255),
    blendCh_mask_zero (Nat.le_refl 255)]
  rfl

theorem img1_processed_width (i1 i2 : Img) :
    (img1_processed i1 i2).width = max_w i1 i2 := rfl

theorem img1_processed_height (i1 i2 : Img) :
    (img1_processed i1 i2).height = max_h i1 i2 := rfl

theorem img2_processed_width (i1 i2 : Img) :
    (img2_processed i1 i2).width = max_w i1 i2 := rfl

theorem img2_processed_height (i1 i2 : Img) :
    (img2_processed i1 i2).height = max_h i1 i2 := rfl

theorem chooseOutputDir_cases (st : SaveState) (env : DialogEnv) :
    chooseOutputDir st env = (st, st.outputDir) ∨
      chooseOutputDir st env = (st, none) ∨
      (chooseOutputDir st env =
          ({ st with outputDir := some env.pickedDir }, some env.pickedDir) ∧
        env.pickedDir ≠ "") := by
  unfold chooseOutputDir
  split
  · split
    · left; rfl
    · split
      · right; left; rfl
      · rename_i hne
        right; right
        exact ⟨rfl, by simpa using hne⟩
  · split
    · right; left; rfl
    · rename_i hne
      right; right
      exact ⟨rfl, by simpa using hne⟩

theorem chooseOutputDir_cancel (st : SaveState) (env : DialogEnv)
    (h : (chooseOutputDir st env).2 = none) : (chooseOutputDir st env).1 = st := by
  rcases chooseOutputDir_cases st env with hc | hc | ⟨hc, _⟩
  · rw [hc]
  · rw [hc]
  · rw [hc] at h
    simp at h

theorem chooseOutputDir_update (st : SaveState) (env : DialogEnv) :
    (chooseOutputDir st env).1.outputDir = st.outputDir ∨
      ((chooseOutputDir st env).1.outputDir = some env.pickedDir ∧
        env.pickedDir ≠ "") := by
  rcases chooseOutputDir_cases st env with hc | hc | ⟨hc, hne⟩
  · left; rw [hc]
  · left; rw [hc]
  · right
    exact ⟨by rw [hc], hne⟩

/-- Claim C1: for every pair of decoded source images and every repeat count,
the exported frame sequence is exactly the pair [quantized frame A, quantized
frame B] repeated `count` times in that order, starting with A, so the total
output frame count equals `2 * count`. -/
theorem frame_sequence_is_repeated_pair (i1 i2 : Img) (count : Nat) :
    frames_pil i1 i2 count =
        (List.replicate count [img1_q i1 i2, img2_q i1 i2]).flatten ∧
      (frames_pil i1 i2 count).length = 2 * count :=
  ⟨frames_pil_eq i1 i2 count, frames_pil_length i1 i2 count⟩

/-- Claim C2: the canvas dimensions are the element-wise maximum of the two
source images' widths and heights, and every frame of the exported animation
has exactly those dimensions. -/
theorem every_frame_has_canvas_dimensions (i1 i2 : Img) (count freqTenths : Nat) :
    max_w i1 i2 = max i1.width i2.width ∧
      max_h i1 i2 = max i1.height i2.height ∧
      ((buildGif i1 i2 count freqTenths).frames.all
          (fun f => f.width == max_w i1 i2 && f.height == max_h i1 i2)) = true := by
  refine ⟨rfl, rfl, ?_⟩
  rw [List.all_eq_true]
  intro f hf
  have hd := mem_frames_pil_dims i1 i2 count f hf
  simp [hd.1, hd.2]

/-- Claim C7: every export is encoded with a uniform per-frame duration equal
to the interval converted to milliseconds, loop count 0 (looping forever in
the GIF container), and the frame order exactly as built from the repeated
[A, B] pairs. -/
theorem encoding_parameters (i1 i2 : Img) (count freqTenths : Nat) :
    (buildGif i1 i2 count freqTenths).durationMs = freqTenths * 100 ∧
      (buildGif i1 i2 count freqTenths).loop = 0 ∧
      (buildGif i1 i2 count freqTenths).frames =
        (List.replicate count [img1_q i1 i2, img2_q i1 i2]).flatten :=
  ⟨rfl, rfl, frames_pil_eq i1 i2 count⟩

/-- Claim C8: the compositor is deterministic — two invocations on source
images with identical dimensions and pixel data and identical repeat-count
and interval parameters produce identical output, hence the same dimensions,
frame count, frame contents and palette. -/
theorem compositor_deterministic (i1 i2 j1 j2 : Img) (count freqTenths : Nat)
    (hw1 : i1.width = j1.width) (hh1 : i1.height = j1.height)
    (hp1 : ∀ x y, i1.px x y = j1.px x y)
    (hw2 : i2.width = j2.width) (hh2 : i2.height = j2.height)
    (hp2 : ∀ x y, i2.px x y = j2.px x y) :
    buildGif i1 i2 count freqTenths = buildGif j1 j2 count freqTenths := by
  have e1 : i1 = j1 := by
    cases i1 with
    | mk w h p =>
      cases j1 with
      | mk w' h' p' =>
        dsimp at hw1 hh1
        subst hw1
        subst hh1
        have hpe : p = p' := funext fun x => funext fun y => hp1 x y
        rw [hpe]
  have e2 : i2 = j2 := by
    cases i2 with
    | mk w h p =>
      cases j2 with
      | mk w' h' p' =>
        dsimp at hw2 hh2
        subst hw2
        subst hh2
        have hpe : p = p' := funext fun x => funext fun y => hp2 x y
        rw [hpe]
  rw [e1, e2]

/-- Witness for claim C8 at concrete images. -/
theorem compositor_deterministic_witness :
    buildGif red1 blue1 3 5 = buildGif red1 blue1 3 5 :=
  compositor_deterministic red1 blue1 red1 blue1 3 5 rfl rfl (fun _ _ => rfl)
    rfl rfl (fun _ _ => rfl)

/-- Claim C9: the palette-reference image of size max_w by 2*max_h is
completely covered by the two processed frames pasted at (0, 0) and
(0, max_h): every pixel inside its bounds shows one of the two normalized
frames, never the black base canvas. -/
theorem combined_fully_covered (i1 i2 : Img) (x y : Nat)
    (hx : x < max_w i1 i2) (hy : y < 2 * max_h i1 i2) :
    (combined i1 i2).width = max_w i1 i2 ∧
      (combined i1 i2).height = 2 * max_h i1 i2 ∧
      (combined i1 i2).px x y =
        (if y < max_h i1 i2 then (img1_processed i1 i2).px x y
         else (img2_processed i1 i2).px x (y - max_h i1 i2)) := by
  refine ⟨rfl, ?_, ?_⟩
  · show max_h i1 i2 * 2 = 2 * max_h i1 i2
    ring
  · unfold combined pasteOpaque
    dsimp only
    simp only [img1_processed_width, img1_processed_height, img2_processed_width,
      img2_processed_height]
    split_ifs <;> first | rfl | (exfalso; omega)

/-- Witness for claim C9 at a pixel in the lower half of the reference
image of two concrete 1 by 1 frames. -/
theorem combined_fully_covered_witness :
    (0 : Nat) < max_w red1 blue1 ∧ (1 : Nat) < 2 * max_h red1 blue1 ∧
      ((combined red1 blue1).width = max_w red1 blue1 ∧
        (combined red1 blue1).height = 2 * max_h red1 blue1 ∧
        (combined red1 blue1).px 0 1 =
          (if (1 : Nat) < max_h red1 blue1 then (img1_processed red1 blue1).px 0 1
           else (img2_processed red1 blue1).px 0 (1 - max_h red1 blue1))) :=
  ⟨by decide, by decide, combined_fully_covered red1 blue1 0 1 (by decide) (by decide)⟩

/-- Claim C3: a single palette of at most 256 colours is derived by
median-cut quantization of the synthetic image formed by stacking the two
normalized frames vertically, and both output frames are quantized against
that one shared palette — their palette tables are identical and each frame
shows at most 256 distinct colours — with Floyd-Steinberg error-diffusion
dithering applied to each frame. -/
theorem shared_palette_quantization (i1 i2 : Img)
    (hw : 0 < i1.width) (hh : 0 < i1.height) :
    (img1_q i1 i2).palette = (img2_q i1 i2).palette ∧
      (img1_q i1 i2).palette = (palette_img i1 i2).palette ∧
      (palette_img i1 i2).palette.length ≤ 256 ∧
      (img1_q i1 i2).usedColors.dedup.length ≤ 256 ∧
      (img2_q i1 i2).usedColors.dedup.length ≤ 256 ∧
      palette_img i1 i2 = quantizeMedianCut (combined i1 i2) ∧
      img1_q i1 i2 =
        quantizeToPalette (img1_processed i1 i2) (palette_img i1 i2)
          DitherMode.floydSteinberg ∧
      img2_q i1 i2 =
        quantizeToPalette (img2_processed i1 i2) (palette_img i1 i2)
          DitherMode.floydSteinberg := by
  have hpal_len : (palette_img i1 i2).palette.length ≤ 256 :=
    medianCutPalette_length_le (combined i1 i2)
  have hcw : 0 < (combined i1 i2).width :=
    Nat.lt_of_lt_of_le hw (Nat.le_max_left i1.width i2.width)
  have hch : 0 < (combined i1 i2).height := by
    show 0 < max_h i1 i2 * 2
    have : 0 < max_h i1 i2 :=
      Nat.lt_of_lt_of_le hh (Nat.le_max_left i1.height i2.height)
    omega
  have hpal_ne : (palette_img i1 i2).palette ≠ [] :=
    medianCutPalette_ne_nil (combined i1 i2) hcw hch
  have h1 : (img1_q i1 i2).usedColors.dedup.length ≤ 256 := by
    have hsub : (img1_q i1 i2).usedColors ⊆ (img1_q i1 i2).palette :=
      usedColors_subset (img1_q_idx_lt i1 i2 hpal_ne)
    exact Nat.le_trans (dedup_length_le hsub) hpal_len
  have h2 : (img2_q i1 i2).usedColors.dedup.length ≤ 256 := by
    have hsub : (img2_q i1 i2).usedColors ⊆ (img2_q i1 i2).palette :=
      usedColors_subset (img2_q_idx_lt i1 i2 hpal_ne)
    exact Nat.le_trans (dedup_length_le hsub) hpal_len
  exact ⟨rfl, rfl, hpal_len, h1, h2, rfl, rfl, rfl⟩

/-- Witness for claim C3 at two concrete 1 by 1 frames. -/
theorem shared_palette_quantization_witness :
    0 < red1.width ∧ 0 < red1.height ∧
      ((img1_q red1 blue1).palette = (img2_q red1 blue1).palette ∧
        (img1_q red1 blue1).palette = (palette_img red1 blue1).palette ∧
        (palette_img red1 blue1).palette.length ≤ 256 ∧
        (img1_q red1 blue1).usedColors.dedup.length ≤ 256 ∧
        (img2_q red1 blue1).usedColors.dedup.length ≤ 256 ∧
        palette_img red1 blue1 = quantizeMedianCut (combined red1 blue1) ∧
        img1_q red1 blue1 =
          quantizeToPalette (img1_processed red1 blue1) (palette_img red1 blue1)
            DitherMode.floydSteinberg ∧
        img2_q red1 blue1 =
          quantizeToPalette (img2_processed red1 blue1) (palette_img red1 blue1)
            DitherMode.floydSteinberg) :=
  ⟨by decide, by decide,
    shared_palette_quantization red1 blue1 (by decide) (by decide)⟩

/-- Claim C4: a fully transparent source pixel maps to the opaque background
colour (white), never to black, in the corresponding normalized frame,
because the image is pasted onto the white background using its alpha
channel as the blend mask; the normalized frame is fully opaque. -/
theorem transparent_maps_to_background (i1 i2 : Img) (i j : Nat)
    (hi : i < i1.width) (hj : j < i1.height) (ha : (i1.px i j).a = 0) :
    (img1_processed i1 i2).px ((max_w i1 i2 - i1.width) / 2 + i)
        ((max_h i1 i2 - i1.height) / 2 + j) = white ∧
      ∀ x y, ((img1_processed i1 i2).px x y).a = 255 := by
  constructor
  · exact resize_pad_transparent i1 (max_w i1 i2) (max_h i1 i2) i j
      (Nat.le_max_left i1.width i2.width) (Nat.le_max_left i1.height i2.height)
      hi hj ha
  · intro x y
    exact resize_pad_alpha i1 (max_w i1 i2) (max_h i1 i2) x y

/-- Witness for claim C4: a fully transparent black 1 by 1 source resolves
to the white background, not black, and the frame is opaque. -/
theorem transparent_maps_to_background_witness :
    (0 : Nat) < transparent1.width ∧ (0 : Nat) < transparent1.height ∧
      (transparent1.px 0 0).a = 0 ∧
      ((img1_processed transparent1 blue1).px
          ((max_w transparent1 blue1 - transparent1.width) / 2 + 0)
          ((max_h transparent1 blue1 - transparent1.height) / 2 + 0) = white ∧
        ∀ x y, ((img1_processed transparent1 blue1).px x y).a = 255) :=
  ⟨by decide, by decide, by decide,
    transparent_maps_to_background transparent1 blue1 0 0 (by decide) (by decide)
      (by decide)⟩

/-- Claim C6: normalization thumbnails each source so it fits within the
canvas without exceeding either dimension, never enlarges it beyond its
original resolution (a source already fitting keeps its exact pixel
dimensions), keeps the aspect ratio up to the one-pixel rounding of the
computed axis, and the padded result has exactly the canvas dimensions with
the content centred (the two margins on each axis differ by at most one
pixel). -/
theorem normalization_fits_never_upscales (img : Img) (w h : Nat)
    (hw0 : 0 < img.width) (hh0 : 0 < img.height) (hw : 0 < w) (hh : 0 < h) :
    (thumbnail img w h).width ≤ w ∧ (thumbnail img w h).height ≤ h ∧
      (thumbnail img w h).width ≤ img.width ∧
      (thumbnail img w h).height ≤ img.height ∧
      (img.width ≤ w → img.height ≤ h → thumbnail img w h = img) ∧
      img.height * (thumbnail img w h).width ≤
        img.width * (thumbnail img w h).height + max img.width img.height ∧
      img.width * (thumbnail img w h).height ≤
        img.height * (thumbnail img w h).width + max img.width img.height ∧
      (resize_pad img w h).width = w ∧ (resize_pad img w h).height = h ∧
      (w - (thumbnail img w h).width) / 2 ≤
        w - (thumbnail img w h).width - (w - (thumbnail img w h).width) / 2 ∧
      w - (thumbnail img w h).width - (w - (thumbnail img w h).width) / 2 ≤
        (w - (thumbnail img w h).width) / 2 + 1 ∧
      (h - (thumbnail img w h).height) / 2 ≤
        h - (thumbnail img w h).height - (h - (thumbnail img w h).height) / 2 ∧
      h - (thumbnail img w h).height - (h - (thumbnail img w h).height) / 2 ≤
        (h - (thumbnail img w h).height) / 2 + 1 := by
  rw [thumbnail_width, thumbnail_height]
  have hbox := @thumbSize_le_box img.width img.height w h hh0 hw hh
  have horig := @thumbSize_le_orig img.width img.height w h hw0 hh0 hw hh
  have hasp := @thumbSize_aspect img.width img.height w h hw0 hh0 hw hh
  refine ⟨hbox.1, hbox.2, horig.1, horig.2, ?_, hasp.1, hasp.2, rfl, rfl,
    ?_, ?_, ?_, ?_⟩
  · exact fun h1 h2 => thumbnail_of_fits img w h h1 h2
  · omega
  · omega
  · omega
  · omega

/-- Witness for claim C6: a 4 by 2 source thumbnailed into a 2 by 2 box. -/
theorem normalization_fits_never_upscales_witness :
    (0 : Nat) < red4x2.width ∧ (0 : Nat) < red4x2.height ∧
      ((thumbnail red4x2 2 2).width ≤ 2 ∧ (thumbnail red4x2 2 2).height ≤ 2 ∧
        (thumbnail red4x2 2 2).width ≤ red4x2.width ∧
        (thumbnail red4x2 2 2).height ≤ red4x2.height ∧
        (red4x2.width ≤ 2 → red4x2.height ≤ 2 → thumbnail red4x2 2 2 = red4x2) ∧
        red4x2.height * (thumbnail red4x2 2 2).width ≤
          red4x2.width * (thumbnail red4x2 2 2).height +
            max red4x2.width red4x2.height ∧
        red4x2.width * (thumbnail red4x2 2 2).height ≤
          red4x2.height * (thumbnail red4x2 2 2).width +
            max red4x2.width red4x2.height ∧
        (resize_pad red4x2 2 2).width = 2 ∧ (resize_pad red4x2 2 2).height = 2 ∧
        (2 - (thumbnail red4x2 2 2).width) / 2 ≤
          2 - (thumbnail red4x2 2 2).width -
            (2 - (thumbnail red4x2 2 2).width) / 2 ∧
        2 - (thumbnail red4x2 2 2).width -
            (2 - (thumbnail red4x2 2 2).width) / 2 ≤
          (2 - (thumbnail red4x2 2 2).width) / 2 + 1 ∧
        (2 - (thumbnail red4x2 2 2).height) / 2 ≤
          2 - (thumbnail red4x2 2 2).height -
            (2 - (thumbnail red4x2 2 2).height) / 2 ∧
        2 - (thumbnail red4x2 2 2).height -
            (2 - (thumbnail red4x2 2 2).height) / 2 ≤
          (2 - (thumbnail red4x2 2 2).height) / 2 + 1) :=
  ⟨by decide, by decide,
    normalization_fits_never_upscales red4x2 2 2 (by decide) (by decide)
      (by decide) (by decide)⟩

/-- Counterexample for claim C5: with a forced repeat count of zero — the
non-positive case the claim says raises an InvalidParameterError — the code
instead surfaces the IndexError of the empty frame list through its single
generic handler; no code path produces an InvalidParameterError. -/
theorem zero_count_is_index_error_not_invalid_parameter :
    (save_gif stBoth envPick decodeOk true 0 5).2 =
        SaveOutcome.failed SaveErr.indexError ∧
      SaveErr.indexError ≠ SaveErr.invalidParameter :=
  ⟨rfl, by decide⟩

/-- Claim C5 (amended): the compositor fails with a decode error naming the
offending path when a source cannot be decoded (image A is opened first),
and with an I/O error when the destination cannot be written; every failure
is surfaced synchronously to the caller through the one generic handler and
nothing is retried.  No InvalidParameterError exists: the spin boxes clamp
the repeat count into 1..999 and the interval into 0.1..10.0 seconds, so
non-positive parameters never reach `_save_gif`, and a forced zero repeat
count surfaces the IndexError of the empty frame list instead. -/
theorem error_classification (st : SaveState) (env : DialogEnv)
    (decode : String → Option Img) (writeOk : Bool) (count freqTenths : Nat)
    (p1 p2 dir : String)
    (h1 : st.image1Path = some p1) (h2 : st.image2Path = some p2)
    (hd : (chooseOutputDir st env).2 = some dir) :
    (decode p1 = none →
        (save_gif st env decode writeOk count freqTenths).2 =
          SaveOutcome.failed (SaveErr.decodeError p1)) ∧
      (∀ i1, decode p1 = some i1 → decode p2 = none →
        (save_gif st env decode writeOk count freqTenths).2 =
          SaveOutcome.failed (SaveErr.decodeError p2)) ∧
      (∀ i1 i2, decode p1 = some i1 → decode p2 = some i2 → count = 0 →
        (save_gif st env decode writeOk count freqTenths).2 =
          SaveOutcome.failed SaveErr.indexError) ∧
      (∀ i1 i2, decode p1 = some i1 → decode p2 = some i2 → 0 < count →
        writeOk = false →
        (save_gif st env decode writeOk count freqTenths).2 =
          SaveOutcome.failed SaveErr.ioError) ∧
      (save_gif st env decode writeOk count freqTenths).2 ≠
        SaveOutcome.failed SaveErr.invalidParameter ∧
      (∀ v : Int, 1 ≤ spinCountClamp v ∧ 1 ≤ spinFreqClampTenths v) := by
  refine ⟨?_, ?_, ?_, ?_, ?_, ?_⟩
  · intro hA
    simp [save_gif, h1, h2, hd, hA]
  · intro i1 hA hB
    simp [save_gif, h1, h2, hd, hA, hB]
  · intro i1 i2 hA hB hc
    simp [save_gif, h1, h2, hd, hA, hB, hc]
  · intro i1 i2 hA hB hc hwr
    have hc0 : ¬ count = 0 := by omega
    simp [save_gif, h1, h2, hd, hA, hB, hc0, hwr]
  · cases hA : decode p1 with
    | none => simp [save_gif, h1, h2, hd, hA]
    | some i1 =>
      cases hB : decode p2 with
      | none => simp [save_gif, h1, h2, hd, hA, hB]
      | some i2 =>
        by_cases hc : count = 0
        · simp [save_gif, h1, h2, hd, hA, hB, hc]
        · cases writeOk
          · simp [save_gif, h1, h2, hd, hA, hB, hc]
          · simp [save_gif, h1, h2, hd, hA, hB, hc]
  · intro v
    exact ⟨le_max_left _ _, le_max_left _ _⟩

/-- Witness for claim C5's amended theorem: an unreadable image A surfaces a
decode error naming its path. -/
theorem error_classification_witness :
    (save_gif stBoth envPick decodeFailA true 1 5).2 =
      SaveOutcome.failed (SaveErr.decodeError "a.png") :=
  (error_classification stBoth envPick decodeFailA true 1 5 "a.png" "b.png"
      "/out" rfl rfl rfl).1 rfl

/-- Claim C10: when the user cancels the destination-directory dialog, the
export returns before any source image is opened or anything is written —
the outcome is the silent early return, identical for every decoder and
every destination — and the cached output directory keeps its previous
value; in general the cached directory is only updated when a non-empty
directory is actually chosen. -/
theorem cancel_preserves_state (st : SaveState) (env : DialogEnv) (p1 p2 : String)
    (h1 : st.image1Path = some p1) (h2 : st.image2Path = some p2)
    (hc : (chooseOutputDir st env).2 = none) :
    (∀ (decode : String → Option Img) (writeOk : Bool) (count freqTenths : Nat),
        save_gif st env decode writeOk count freqTenths =
          (st, SaveOutcome.cancelled)) ∧
      (∀ (st' : SaveState) (env' : DialogEnv),
        (chooseOutputDir st' env').1.outputDir = st'.outputDir ∨
          ((chooseOutputDir st' env').1.outputDir = some env'.pickedDir ∧
            env'.pickedDir ≠ "")) := by
  constructor
  · intro decode writeOk count freqTenths
    have hst := chooseOutputDir_cancel st env hc
    simp [save_gif, h1, h2, hc, hst]
  · intro st' env'
    exact chooseOutputDir_update st' env'

/-- Witness for claim C10: cancelling the directory dialog with both images
picked leaves the state untouched and yields the silent early return, for a
decoder that would have succeeded. -/
theorem cancel_preserves_state_witness :
    (chooseOutputDir stBoth envCancel).2 = none ∧
      save_gif stBoth envCancel decodeOk true 1 5 =
        (stBoth, SaveOutcome.cancelled) :=
  ⟨rfl, (cancel_preserves_state stBoth envCancel "a.png" "b.png" rfl rfl
      rfl).1 decodeOk true 1 5⟩

end ImageCompare
